import Mathlib

/-!
A shallow embedding of the affairon event-dispatch core: the merge engine
(`utils.py`), the dependency registry (`registry.py`), and the synchronous
and concurrent dispatch engines (`dispatcher.py`, `async_dispatcher.py`,
`base_dispatcher.py`), together with theorems checking the specification's
claims against it.

Python values, dicts and callbacks are modelled as follows: a Python value
is a `Value` (ints, bools, strings, lists, dicts); a Python `dict` is an
insertion-ordered association list (`Dict`); callbacks and affair types are
identified by natural numbers, their behaviour supplied by an environment.
Python exceptions become an explicit `PyErr` error type threaded through
`Except`.
-/

namespace Affairon

/-- Model of a Python value as stored in callback result dicts. -/
inductive Value where
  | vInt : Int → Value
  | vBool : Bool → Value
  | vStr : String → Value
  | vList : List Value → Value
  | vDict : List (String × Value) → Value

/-- A Python `dict[str, Any]`: an insertion-ordered association list. -/
abbrev Dict := List (String × Value)

/-- Lookup in an insertion-ordered association list (Python `d[k]` / `k in d`). -/
def lookupKey {α β : Type} [DecidableEq α] : List (α × β) → α → Option β
  | [], _ => none
  | (k, v) :: rest, key => if k = key then some v else lookupKey rest key

/-- Python `d[k] = v`: update the entry in place when the key is present,
otherwise append a new entry at the end (insertion order preserved). -/
def setKey {α β : Type} [DecidableEq α] : List (α × β) → α → β → List (α × β)
  | [], key, v => [(key, v)]
  | (k, w) :: rest, key, v =>
      if k = key then (k, v) :: rest else (k, w) :: setKey rest key v

/-- The five merge strategies of `MergeStrategy` (string literals in the source). -/
inductive MergeStrategy where
  | raiseS
  | keep
  | override
  | list_merge
  | dict_merge
deriving Repr, DecidableEq

/-- Python exceptions surfaced by the embedded core. -/
inductive PyErr where
  /-- `KeyConflictError`, carrying the colliding key. -/
  | keyConflict : String → PyErr
  /-- `TypeError`, carrying a short description. -/
  | typeErr : String → PyErr
  /-- `ValueError` raised by registry argument validation. -/
  | valueErr : String → PyErr
  /-- `CyclicDependencyError` raised on a rejected registration. -/
  | cyclicDependency : String → PyErr
  /-- `AttributeError`/`TypeError` from mutating a non-list / non-dict value. -/
  | attrErr : String → PyErr
  /-- An application exception re-raised out of a callback, by message. -/
  | userExc : String → PyErr
  /-- Python `RecursionError` (modelled as fuel exhaustion). -/
  | recursionErr : PyErr
  /-- `networkx.NetworkXError` when a BFS source node is absent from the graph. -/
  | nxErr : PyErr

/-- `_wrap_value` from `utils.py`: transform a value on first insertion.
`list_merge` wraps into a one-element list, `dict_merge` into a one-entry
dict keyed by `source_name`, other strategies keep the raw value. -/
def wrap_value (strategy : MergeStrategy) (value : Value) (source_name : String) :
    Value :=
  match strategy with
  | .list_merge => .vList [value]
  | .dict_merge => .vDict [(source_name, value)]
  | _ => value

/-- `_resolve_conflict` from `utils.py`: resolve a key conflict between the
existing and the new value.  `raise` fails with `KeyConflictError`; `keep`
returns the existing value; `override` returns the new one; `list_merge`
appends to the existing list (`existing.append`, an `AttributeError` on a
non-list); `dict_merge` sets `existing[source_name] = value` (a `TypeError`
on a non-dict). -/
def resolve_conflict (strategy : MergeStrategy) (key : String)
    (existing new_value : Value) (source_name : String) : Except PyErr Value :=
  match strategy with
  | .raiseS => .error (.keyConflict key)
  | .keep => .ok existing
  | .override => .ok new_value
  | .list_merge =>
      match existing with
      | .vList xs => .ok (.vList (xs ++ [new_value]))
      | _ => .error (.attrErr "append on non-list")
  | .dict_merge =>
      match existing with
      | .vDict xs => .ok (.vDict (setKey xs source_name new_value))
      | _ => .error (.attrErr "item assignment on non-dict")

/-- One iteration of the `merge_dict` loop body for a single source pair. -/
def mergeStep (strategy : MergeStrategy) (source_name : String)
    (target : Dict) (kv : String × Value) : Except PyErr Dict :=
  match lookupKey target kv.1 with
  | some existing => do
      let v ← resolve_conflict strategy kv.1 existing kv.2 source_name
      pure (setKey target kv.1 v)
  | none => pure (setKey target kv.1 (wrap_value strategy kv.2 source_name))

/-- `merge_dict` from `utils.py`: fold every source pair into the target in
source insertion order, resolving conflicts per `strategy`. -/
def merge_dict (target source : Dict) (strategy : MergeStrategy)
    (source_name : String) : Except PyErr Dict :=
  source.foldlM (mergeStep strategy source_name) target

/-!
## Dependency registry (`registry.py`)

Callbacks and affair types are identified by natural numbers.  A
`networkx.DiGraph` is modelled as a pair of insertion-ordered duplicate-free
lists of nodes and edges, which is exactly the observable state networkx
keeps for an unlabelled digraph (node and adjacency insertion order
included, since `bfs_layers` iterates in that order).
-/

/-- A `networkx.DiGraph` over callback ids: insertion-ordered node and edge
lists. -/
structure DiGraph where
  nodes : List Nat
  edges : List (Nat × Nat)

/-- `DiGraph.add_node`: idempotent, appends in insertion order. -/
def addNode (g : DiGraph) (n : Nat) : DiGraph :=
  if n ∈ g.nodes then g else { g with nodes := g.nodes ++ [n] }

/-- `DiGraph.add_edge`: ensures both endpoints exist, then appends the edge
if not already present. -/
def addEdge (g : DiGraph) (u v : Nat) : DiGraph :=
  let g := addNode (addNode g u) v
  if (u, v) ∈ g.edges then g else { g with edges := g.edges ++ [(u, v)] }

/-- `DiGraph.remove_node`: removes the node together with all incident
edges. -/
def removeNode (g : DiGraph) (n : Nat) : DiGraph :=
  { nodes := g.nodes.erase n,
    edges := g.edges.filter (fun e => e.1 ≠ n && e.2 ≠ n) }

/-- Out-neighbours of a node, in edge insertion order (the iteration order
of `G.neighbors` on a `DiGraph`). -/
def successors (g : DiGraph) (n : Nat) : List Nat :=
  (g.edges.filter (fun e => e.1 = n)).map (·.2)

/-- One step of forward reachability: add the successors of every frontier
node (deduplicated, order irrelevant to its uses). -/
def reachStep (g : DiGraph) (s : List Nat) : List Nat :=
  (s ++ s.flatMap (successors g)).dedup

/-- Nodes reachable from `start` (including `start`), by iterating
`reachStep` as many times as there are nodes. -/
def reachableFrom (g : DiGraph) (start : List Nat) : List Nat :=
  Nat.rec start (fun _ acc => reachStep g acc) g.nodes.length

/-- `list(nx.simple_cycles(graph))` is non-empty iff the digraph has a
cycle, iff some node is reachable from one of its successors. -/
def hasCycle (g : DiGraph) : Bool :=
  g.nodes.any (fun n => n ∈ reachableFrom g (successors g n))

/-- Registry state: guardian callback id, per-affair-type graphs
(insertion-ordered, mirroring the `defaultdict`), and the per-(type,
callback) `when` predicate table.

The predicate table is modelled from the spec: the snapshot of
`registry.py` has no `when` parameter on `add` and no `should_fire`,
although `BaseDispatcher.register` passes `when=` to `add` and both
dispatch engines call `should_fire`; the spec says the optional predicate
is supplied at registration and consulted at dispatch time. -/
structure Registry where
  guardian : Nat
  graphs : List (Nat × DiGraph)
  whens : List ((Nat × Nat) × Nat)

/-- A fresh registry with only the guardian configured. -/
def Registry.empty (guardian : Nat) : Registry :=
  { guardian := guardian, graphs := [], whens := [] }

/-- `self._graphs[affair_type]` under `defaultdict(nx.DiGraph)`: the stored
graph, or a fresh empty one. -/
def getGraph (r : Registry) (t : Nat) : DiGraph :=
  (lookupKey r.graphs t).getD { nodes := [], edges := [] }

/-- Store a (possibly fresh) graph back under its affair type. -/
def putGraph (r : Registry) (t : Nat) (g : DiGraph) : Registry :=
  { r with graphs := setKey r.graphs t g }

/-- The body of `BaseRegistry.add` for one affair type: create the graph on
demand, add the guardian node, validate the `after` dependencies
(`ValueError` on an unknown one, with the guardian insertion already
applied), insert the callback node, wire the dependency edges (from the
guardian when `after` is `None` or empty, since `after or [guardian]`
treats an empty list as falsy), then check for cycles and roll back by
`remove_node(callback)` raising `CyclicDependencyError`.  Returns the
mutated registry together with the raised exception, if any. -/
def addOne (r : Registry) (t : Nat) (callback : Nat) (after : Option (List Nat))
    (whenP : Option Nat) : Registry × Option PyErr :=
  let g := addNode (getGraph r t) r.guardian
  let deps := after.getD []
  if deps.all (fun dep => dep ∈ g.nodes) then
    let g := addNode g callback
    let wires := if deps.isEmpty then [r.guardian] else deps
    let g := wires.foldl (fun g dep => addEdge g dep callback) g
    if hasCycle g then
      (putGraph r t (removeNode g callback), some (.cyclicDependency "cycle"))
    else
      let r := putGraph r t g
      ({ r with whens := match whenP with
                         | some p => setKey r.whens (t, callback) p
                         | none => r.whens }, none)
  else
    (putGraph r t g, some (.valueErr "after not registered"))

/-- `BaseRegistry.add`: process the affair types in order, stopping at the
first exception; mutations made for earlier types persist (the Python loop
raises out of its body). -/
def Registry.add (r : Registry) (affair_types : List Nat) (callback : Nat)
    (after : Option (List Nat)) (whenP : Option Nat) : Registry × Option PyErr :=
  match affair_types with
  | [] => (r, none)
  | t :: rest =>
      match addOne r t callback after whenP with
      | (r, none) => Registry.add r rest callback after whenP
      | (r, some e) => (r, some e)

/-- Drop an affair type's graph entirely (`del self._graphs[affair_type]`). -/
def dropGraph (r : Registry) (t : Nat) : Registry :=
  { r with graphs := r.graphs.filter (fun kv => kv.1 ≠ t) }

/-- Remove one callback from one affair type's graph, dropping the graph
when it becomes empty, mirroring the `remove` loop body. -/
def removeOne (r : Registry) (t : Nat) (callback : Nat) : Registry :=
  match lookupKey r.graphs t with
  | none => r
  | some g =>
      if callback ∈ g.nodes then
        let g := removeNode g callback
        if g.nodes.length = 0 then dropGraph r t else putGraph r t g
      else r

/-- `BaseRegistry.remove`: `(types, cb)` removes the pairing per type;
`(types, None)` drops the listed types; `(None, cb)` removes the callback
from every graph (dropping emptied ones); both `None` is a `ValueError`.
The `when` table entries of removed pairings are cleaned up alongside
(spec-modelled, see `Registry.whens`). -/
def Registry.remove (r : Registry) (affair_types : Option (List Nat))
    (callback : Option Nat) : Except PyErr Registry :=
  match affair_types, callback with
  | none, none => .error (.valueErr "affair_types and callback cannot both be None")
  | some ts, some cb =>
      .ok (ts.foldl (fun r t =>
        { removeOne r t cb with
          whens := (removeOne r t cb).whens.filter (fun e => e.1 ≠ (t, cb)) }) r)
  | some ts, none =>
      .ok (ts.foldl (fun r t =>
        { dropGraph r t with
          whens := (dropGraph r t).whens.filter (fun e => e.1.1 ≠ t) }) r)
  | none, some cb =>
      .ok ((r.graphs.map (·.1)).foldl (fun r t =>
        { removeOne r t cb with
          whens := (removeOne r t cb).whens.filter (fun e => e.1 ≠ (t, cb)) }) r)

/-- The unvisited-children accumulator of one `bfs_layers` round: scan the
candidate children in order, skipping those already visited or already
collected this round. -/
def filterNew (visited : List Nat) : List Nat → List Nat → List Nat
  | acc, [] => acc
  | acc, c :: cs =>
      if c ∈ visited ∨ c ∈ acc then filterNew visited acc cs
      else filterNew visited (acc ++ [c]) cs

/-- The next BFS layer: unvisited successors of the current layer, in
current-layer order then adjacency insertion order, exactly as
`nx.bfs_layers` enumerates them. -/
def expandLayer (g : DiGraph) (visited current : List Nat) : List Nat :=
  filterNew visited [] (current.flatMap (successors g))

/-- The `bfs_layers` loop, with fuel bounding the number of produced
layers (each non-final round visits at least one new node, so
`g.nodes.length + 1` rounds always suffice for sources inside the graph). -/
def bfsLayersAux (g : DiGraph) : Nat → List Nat → List Nat → List (List Nat)
  | 0, _, _ => []
  | fuel + 1, visited, current =>
      if current.isEmpty then []
      else
        current ::
          bfsLayersAux g fuel (visited ++ expandLayer g visited current)
            (expandLayer g visited current)

/-- `nx.bfs_layers(graph, sources)`: successive layers of a breadth-first
search, sources first. -/
def bfsLayers (g : DiGraph) (sources : List Nat) : List (List Nat) :=
  bfsLayersAux g (g.nodes.length + 1) sources sources

/-- `BaseRegistry.exec_order`: the empty sequence when the affair type was
never registered, `none` when the guardian is missing from the stored graph
(networkx raises on an absent BFS source), otherwise the BFS layers from
the guardian with the guardian's own layer dropped (`[1:]`). -/
def Registry.exec_order (r : Registry) (t : Nat) : Option (List (List Nat)) :=
  match lookupKey r.graphs t with
  | none => some []
  | some g =>
      if r.guardian ∈ g.nodes then some ((bfsLayers g [r.guardian]).drop 1)
      else none

/-- `should_fire`, modelled from the spec: a callback fires unless it was
registered with a `when` predicate that evaluates false on the affair
instance.  `preds` gives the meaning of each stored predicate id. -/
def Registry.should_fire (r : Registry) {A : Type} (preds : Nat → A → Bool)
    (cb t : Nat) (affair : A) : Bool :=
  match lookupKey r.whens (t, cb) with
  | some p => preds p affair
  | none => true

/-!
## Dispatch engines (`dispatcher.py`, `async_dispatcher.py`,
`base_dispatcher.py`)

An affair instance carries its concrete type id, the two dispatch-affecting
fields and an opaque payload.  The `emit_up` and `merge_strategy` fields
are modelled from the spec (defaults `false` and `raise`): the snapshot of
`affairs.py` does not declare them although both engines read them.

Callback behaviour lives in an environment: `behav cb k a` is what callback
`cb` does on its `k`-th invocation (0-based) against affair `a` — it
returns `None`, returns a value, or raises.  Per-callback invocation
counters and an invocation trace `(affair type, callback)` are threaded
through emission as instrumentation; they change no result.
-/

/-- An affair instance: concrete type id, `emit_up`, `merge_strategy`
(spec-modelled fields, defaults `false` / `raise`), and opaque payload
fields. -/
structure AffairInst where
  ty : Nat
  emit_up : Bool := false
  merge_strategy : MergeStrategy := .raiseS
  fields : Dict := []

/-- Outcome of invoking a callback once: a returned value (`none` models
Python `None`), or a raised exception carrying message and type name. -/
inductive CbRes where
  | ok : Option Value → CbRes
  | exc : String → String → CbRes

/-- The dispatch environment: callback behaviour by invocation count,
predicate meanings, `callable_name`, the affair type hierarchy
(single-inheritance parent links), type display names, and the type id of
`CallbackErrorAffair`. -/
structure EmitEnv where
  behav : Nat → Nat → AffairInst → CbRes
  preds : Nat → AffairInst → Bool
  names : Nat → String
  parentOf : Nat → Option Nat
  tyNames : Nat → String
  errTy : Nat

/-- Per-callback invocation counters. -/
abbrev Counts := List (Nat × Nat)

/-- Number of invocations of a callback so far. -/
def getCount (c : Counts) (cb : Nat) : Nat :=
  (lookupKey c cb).getD 0

/-- Record one more invocation of a callback. -/
def bumpCount (c : Counts) (cb : Nat) : Counts :=
  setKey c cb (getCount c cb + 1)

/-- Threaded instrumentation state: invocation counters and the ordered
trace of invocations as `(affair type, callback)` pairs. -/
abbrev EmitSt := Counts × List (Nat × Nat)

/-- The ancestor chain of an affair type, child first, following the
single-inheritance parent links (fuel-bounded to keep the walk total;
`fuel` larger than the hierarchy depth reproduces the MRO walk). -/
def mroChain (env : EmitEnv) : Nat → Nat → List Nat
  | 0, t => [t]
  | fuel + 1, t =>
      match env.parentOf t with
      | none => [t]
      | some p => t :: mroChain env fuel p

/-- `BaseDispatcher._resolve_affair_types`: only the concrete type when
`emit_up` is false, otherwise the MRO chain of affair types from child to
parent. -/
def resolve_affair_types (env : EmitEnv) (fuel : Nat) (a : AffairInst) :
    List Nat :=
  if a.emit_up then mroChain env fuel a.ty else [a.ty]

/-- Python `int(x)` as used on the `retry` policy value: ints pass
through, bools coerce to 0/1, numeric strings parse (`ValueError`
otherwise), lists and dicts are a `TypeError`. -/
def toInt : Value → Except PyErr Int
  | .vInt n => .ok n
  | .vBool b => .ok (if b then 1 else 0)
  | .vStr s =>
      match s.toInt? with
      | some n => .ok n
      | none => .error (.valueErr "invalid literal for int")
  | .vList _ => .error (.typeErr "int() argument")
  | .vDict _ => .error (.typeErr "int() argument")

/-- Python `bool(x)` truthiness, as applied to `deadletter` and `silent`. -/
def truthy : Value → Bool
  | .vInt n => n ≠ 0
  | .vBool b => b
  | .vStr s => s ≠ ""
  | .vList l => !l.isEmpty
  | .vDict d => !d.isEmpty

/-- `BaseDispatcher._read_error_policy`: `retry` defaults to 0 and is
coerced with `int()` (a failure is re-raised as `TypeError`); `deadletter`
and `silent` default to false and are coerced with `bool()`. -/
def read_error_policy (policy : Dict) : Except PyErr (Int × Bool × Bool) :=
  match toInt ((lookupKey policy "retry").getD (.vInt 0)) with
  | .error _ => .error (.typeErr "retry must be int-convertible")
  | .ok n =>
      .ok (n, truthy ((lookupKey policy "deadletter").getD (.vBool false)),
           truthy ((lookupKey policy "silent").getD (.vBool false)))

/-- The retry loop of `_handle_callback_error`: up to `retry` re-invocations
of the original callback, returning the first successful result, or `none`
when every attempt raised.  Each attempt is counted and traced. -/
def retryCb (env : EmitEnv) (cb t : Nat) (affair : AffairInst) :
    Nat → EmitSt → Option (Option Value) × EmitSt
  | 0, s => (none, s)
  | r + 1, (counts, trace) =>
      let k := getCount counts cb
      let s := (bumpCount counts cb, trace ++ [(t, cb)])
      match env.behav cb k affair with
      | .ok v => (some v, s)
      | .exc _ _ => retryCb env cb t affair r s

/-- The tail of `_handle_callback_error` once the error policy has been
read: retry first, then `deadletter` swallows, then `silent` swallows,
otherwise the original exception is re-raised. -/
def apply_error_policy (env : EmitEnv) (cb t : Nat) (affair : AffairInst)
    (origMsg : String) (retry : Int) (deadletter silent : Bool) (s : EmitSt) :
    Except PyErr (Option Value × EmitSt) :=
  match retryCb env cb t affair retry.toNat s with
  | (some v, s) => .ok (v, s)
  | (none, s) =>
      if deadletter then .ok (none, s)
      else if silent then .ok (none, s)
      else .error (.userExc origMsg)

/-- `_handle_callback_error` (identical in both engines): emit a synthetic
`CallbackErrorAffair` through the given recursive emitter (the affair is
constructed with default `emit_up`/`merge_strategy`), read the merged error
policy and apply it.  `emitRec` stands for the engine's own `emit` with one
unit of fuel consumed. -/
def handle_callback_error (env : EmitEnv)
    (emitRec : AffairInst → EmitSt → Except PyErr (Dict × EmitSt))
    (cb t : Nat) (affair : AffairInst) (msg tyName : String) (s : EmitSt) :
    Except PyErr (Option Value × EmitSt) :=
  match emitRec { ty := env.errTy,
                  fields := [("listener_name", .vStr (env.names cb)),
                             ("original_affair_type", .vStr (env.tyNames affair.ty)),
                             ("error_message", .vStr msg),
                             ("error_type", .vStr tyName)] } s with
  | .error e => .error e
  | .ok (policy, s) =>
      match read_error_policy policy with
      | .error e => .error e
      | .ok (retry, deadletter, silent) =>
          apply_error_policy env cb t affair msg retry deadletter silent s

/-- Merge one callback's non-`None` result into the running result, after
the `isinstance(result, dict)` check (`TypeError` otherwise).  The merge
strategy and source name are passed by the engine. -/
def mergeResult (name : String) (strategy : MergeStrategy)
    (source_name : String) (merged : Dict) :
    Option Value → Except PyErr Dict
  | none => .ok merged
  | some (.vDict d) => merge_dict merged d strategy source_name
  | some _ => .error (.typeErr name)

/-- The loop body of `Dispatcher.emit` for one callback: consult
`should_fire`, invoke, route an exception through the error handler, then
merge the result.  The synchronous engine merges with
`merge_dict(merged_result, result)` — the default `raise` strategy and
empty source name, not the affair's configured strategy (this is what the
source does at `dispatcher.py:85`). -/
def syncCb (env : EmitEnv) (reg : Registry)
    (emitRec : AffairInst → EmitSt → Except PyErr (Dict × EmitSt))
    (affair : AffairInst) (t cb : Nat) (merged : Dict) (s : EmitSt) :
    Except PyErr (Dict × EmitSt) :=
  if reg.should_fire env.preds cb t affair then
    match env.behav cb (getCount s.1 cb) affair with
    | .ok res =>
        match mergeResult (env.names cb) .raiseS "" merged res with
        | .ok merged => .ok (merged, (bumpCount s.1 cb, s.2 ++ [(t, cb)]))
        | .error e => .error e
    | .exc msg tyName =>
        match handle_callback_error env emitRec cb t affair msg tyName
            (bumpCount s.1 cb, s.2 ++ [(t, cb)]) with
        | .ok (res, s2) =>
            match mergeResult (env.names cb) .raiseS "" merged res with
            | .ok merged => .ok (merged, s2)
            | .error e => .error e
        | .error e => .error e
  else .ok (merged, s)

/-- One execution layer of the synchronous engine, callbacks in layer
order. -/
def syncLayer (env : EmitEnv) (reg : Registry)
    (emitRec : AffairInst → EmitSt → Except PyErr (Dict × EmitSt))
    (affair : AffairInst) (t : Nat) :
    List Nat → Dict → EmitSt → Except PyErr (Dict × EmitSt)
  | [], merged, s => .ok (merged, s)
  | cb :: rest, merged, s =>
      match syncCb env reg emitRec affair t cb merged s with
      | .ok (merged, s) => syncLayer env reg emitRec affair t rest merged s
      | .error e => .error e

/-- All execution layers of one affair type, in order. -/
def syncLayers (env : EmitEnv) (reg : Registry)
    (emitRec : AffairInst → EmitSt → Except PyErr (Dict × EmitSt))
    (affair : AffairInst) (t : Nat) :
    List (List Nat) → Dict → EmitSt → Except PyErr (Dict × EmitSt)
  | [], merged, s => .ok (merged, s)
  | layer :: rest, merged, s =>
      match syncLayer env reg emitRec affair t layer merged s with
      | .ok (merged, s) => syncLayers env reg emitRec affair t rest merged s
      | .error e => .error e

/-- The dispatched affair types of one emission, each contributing its
execution layers from the registry. -/
def syncTypes (env : EmitEnv) (reg : Registry)
    (emitRec : AffairInst → EmitSt → Except PyErr (Dict × EmitSt))
    (affair : AffairInst) :
    List Nat → Dict → EmitSt → Except PyErr (Dict × EmitSt)
  | [], merged, s => .ok (merged, s)
  | t :: rest, merged, s =>
      match reg.exec_order t with
      | none => .error .nxErr
      | some layers =>
          match syncLayers env reg emitRec affair t layers merged s with
          | .ok (merged, s) => syncTypes env reg emitRec affair rest merged s
          | .error e => .error e

/-- `Dispatcher.emit` (synchronous engine), fuel-indexed to bound the
recursion through nested error-affair emissions (fuel exhaustion models
Python's `RecursionError`). -/
def emitSyncF (env : EmitEnv) (reg : Registry) :
    Nat → AffairInst → EmitSt → Except PyErr (Dict × EmitSt)
  | 0, _, _ => .error .recursionErr
  | fuel + 1, affair, s =>
      syncTypes env reg (emitSyncF env reg fuel) affair
        (resolve_affair_types env (fuel + 1) affair) [] s

/-- The loop body of `AsyncDispatcher.emit` for one callback: like the
synchronous one but merging under `affair.merge_strategy` with
`callable_name(cb)` as source name, exactly as `async_dispatcher.py:94-99`
does.  Tasks of one layer are created and their results merged in declared
order (`zip(filtered_cbs, tasks)`), so the merge order is deterministic;
only the interleaving of the invocations themselves is concurrent, which
this per-callback-counter model cannot observe. -/
def asyncCb (env : EmitEnv) (reg : Registry)
    (emitRec : AffairInst → EmitSt → Except PyErr (Dict × EmitSt))
    (affair : AffairInst) (t cb : Nat) (merged : Dict) (s : EmitSt) :
    Except PyErr (Dict × EmitSt) :=
  if reg.should_fire env.preds cb t affair then
    match env.behav cb (getCount s.1 cb) affair with
    | .ok res =>
        match mergeResult (env.names cb) affair.merge_strategy (env.names cb)
            merged res with
        | .ok merged => .ok (merged, (bumpCount s.1 cb, s.2 ++ [(t, cb)]))
        | .error e => .error e
    | .exc msg tyName =>
        match handle_callback_error env emitRec cb t affair msg tyName
            (bumpCount s.1 cb, s.2 ++ [(t, cb)]) with
        | .ok (res, s2) =>
            match mergeResult (env.names cb) affair.merge_strategy (env.names cb)
                merged res with
            | .ok merged => .ok (merged, s2)
            | .error e => .error e
        | .error e => .error e
  else .ok (merged, s)

/-- One execution layer of the concurrent engine (results merged in
declared order, see `asyncCb`). -/
def asyncLayer (env : EmitEnv) (reg : Registry)
    (emitRec : AffairInst → EmitSt → Except PyErr (Dict × EmitSt))
    (affair : AffairInst) (t : Nat) :
    List Nat → Dict → EmitSt → Except PyErr (Dict × EmitSt)
  | [], merged, s => .ok (merged, s)
  | cb :: rest, merged, s =>
      match asyncCb env reg emitRec affair t cb merged s with
      | .ok (merged, s) => asyncLayer env reg emitRec affair t rest merged s
      | .error e => .error e

/-- All execution layers of one affair type under the concurrent engine. -/
def asyncLayers (env : EmitEnv) (reg : Registry)
    (emitRec : AffairInst → EmitSt → Except PyErr (Dict × EmitSt))
    (affair : AffairInst) (t : Nat) :
    List (List Nat) → Dict → EmitSt → Except PyErr (Dict × EmitSt)
  | [], merged, s => .ok (merged, s)
  | layer :: rest, merged, s =>
      match asyncLayer env reg emitRec affair t layer merged s with
      | .ok (merged, s) => asyncLayers env reg emitRec affair t rest merged s
      | .error e => .error e

/-- The dispatched affair types of one concurrent emission. -/
def asyncTypes (env : EmitEnv) (reg : Registry)
    (emitRec : AffairInst → EmitSt → Except PyErr (Dict × EmitSt))
    (affair : AffairInst) :
    List Nat → Dict → EmitSt → Except PyErr (Dict × EmitSt)
  | [], merged, s => .ok (merged, s)
  | t :: rest, merged, s =>
      match reg.exec_order t with
      | none => .error .nxErr
      | some layers =>
          match asyncLayers env reg emitRec affair t layers merged s with
          | .ok (merged, s) => asyncTypes env reg emitRec affair rest merged s
          | .error e => .error e

/-- `AsyncDispatcher.emit` (concurrent engine), fuel-indexed like
`emitSyncF`. -/
def emitAsyncF (env : EmitEnv) (reg : Registry) :
    Nat → AffairInst → EmitSt → Except PyErr (Dict × EmitSt)
  | 0, _, _ => .error .recursionErr
  | fuel + 1, affair, s =>
      asyncTypes env reg (emitAsyncF env reg fuel) affair
        (resolve_affair_types env (fuel + 1) affair) [] s

/-!
## Reachable registry states and concrete scenarios
-/

/-- Registry states reachable from a fresh registry through any sequence of
`add` and `remove` calls (an `add` that raises still yields its mutated
state, as in the source). -/
inductive Reachable : Registry → Prop where
  | start (guardian : Nat) : Reachable (Registry.empty guardian)
  | addStep (r : Registry) (ts : List Nat) (cb : Nat) (after : Option (List Nat))
      (whenP : Option Nat) : Reachable r → Reachable (r.add ts cb after whenP).1
  | removeStep (r r2 : Registry) (ts : Option (List Nat)) (cb : Option Nat) :
      Reachable r → r.remove ts cb = .ok r2 → Reachable r2

/-- The 0-based layer index of a callback in an execution layering. -/
def layerIdx (layers : List (List Nat)) (cb : Nat) : Option Nat :=
  layers.findIdx? (fun l => l.contains cb)

/-- C1 scenario: guardian 0, affair type 10, callbacks a = 1 (`after` none),
b = 2 (`after [a]`), d = 3 (`after [b]`), c = 4 (`after [a, d]`) — an
acyclic diamond with branches of unequal depth. -/
def c1Step1 : Registry × Option PyErr := (Registry.empty 0).add [10] 1 none none

/-- C1 scenario, after registering b. -/
def c1Step2 : Registry × Option PyErr := c1Step1.1.add [10] 2 (some [1]) none

/-- C1 scenario, after registering d. -/
def c1Step3 : Registry × Option PyErr := c1Step2.1.add [10] 3 (some [2]) none

/-- C1 scenario, after registering c. -/
def c1Step4 : Registry × Option PyErr := c1Step3.1.add [10] 4 (some [1, 3]) none

/-- C3 scenario A: a = 1 then c = 2 `after [a]` on type 10, then the
rejected re-registration of a `after [c]`. -/
def c3A1 : Registry × Option PyErr := (Registry.empty 0).add [10] 1 none none

/-- C3 scenario A, after registering c. -/
def c3A2 : Registry × Option PyErr := c3A1.1.add [10] 2 (some [1]) none

/-- C3 scenario A: the rejected cyclic re-registration of a. -/
def c3A3 : Registry × Option PyErr := c3A2.1.add [10] 1 (some [2]) none

/-- C3 scenario B: x = 1 on type 10; c = 2 then x `after [c]` on type 11;
then the rejected `add([10, 11], c, after=[x])`. -/
def c3B1 : Registry × Option PyErr := (Registry.empty 0).add [10] 1 none none

/-- C3 scenario B, after registering c on type 11. -/
def c3B2 : Registry × Option PyErr := c3B1.1.add [11] 2 none none

/-- C3 scenario B, after registering x on type 11. -/
def c3B3 : Registry × Option PyErr := c3B2.1.add [11] 1 (some [2]) none

/-- C3 scenario B: the rejected two-type registration (cycle on type 11). -/
def c3B4 : Registry × Option PyErr := c3B3.1.add [10, 11] 2 (some [1]) none

/-- A neutral environment: callbacks return `None`, predicates hold, the
`CallbackErrorAffair` type id is 99. -/
def baseEnv : EmitEnv where
  behav := fun _ _ _ => .ok none
  preds := fun _ _ => true
  names := fun n => toString n
  parentOf := fun _ => none
  tyNames := fun n => toString n
  errTy := 99

/-- C2 scenario environment: callbacks 1 and 2 return `k ↦ 1` and `k ↦ 2`. -/
def envC2 : EmitEnv :=
  { baseEnv with
    behav := fun cb _ _ =>
      if cb = 1 then .ok (some (.vDict [("k", .vInt 1)]))
      else if cb = 2 then .ok (some (.vDict [("k", .vInt 2)]))
      else .ok none }

/-- C2 scenario registry: callbacks 1 and 2 on affair type 10, no `after`
edge. -/
def regC2 : Registry :=
  (((Registry.empty 0).add [10] 1 none none).1.add [10] 2 none none).1

/-- C2 scenario affair: type 10 emitted with `merge_strategy="list_merge"`. -/
def affC2 : AffairInst := { ty := 10, merge_strategy := .list_merge }

/-- C4 scenario environment: callback 1 (`flaky`) raises on its first
invocation and returns `attempt ↦ 2` afterwards; callback 2 (the error
handler) returns `retry ↦ 2`. -/
def envC4 : EmitEnv :=
  { baseEnv with
    behav := fun cb k _ =>
      if cb = 1 then
        (if k = 0 then .exc "transient" "ValueError"
         else .ok (some (.vDict [("attempt", .vInt 2)])))
      else if cb = 2 then .ok (some (.vDict [("retry", .vInt 2)]))
      else .ok none }

/-- C4 scenario registry: flaky on affair type 10, the handler on the
`CallbackErrorAffair` type 99. -/
def regC4 : Registry :=
  (((Registry.empty 0).add [10] 1 none none).1.add [99] 2 none none).1

/-- C4 scenario affair: a plain type-10 affair. -/
def affC4 : AffairInst := { ty := 10 }

/-- C5 scenario environment: callback 1 returns `v ↦ 1`; predicate 5 tests
whether the affair's `msg` field is the string `yes`. -/
def envC5 : EmitEnv :=
  { baseEnv with
    behav := fun cb _ _ =>
      if cb = 1 then .ok (some (.vDict [("v", .vInt 1)])) else .ok none,
    preds := fun p a =>
      if p = 5 then
        (match lookupKey a.fields "msg" with
         | some (.vStr s) => s = "yes"
         | _ => false)
      else true }

/-- C5 scenario registry: callback 1 on affair type 10 with `when`
predicate 5. -/
def regC5 : Registry := ((Registry.empty 0).add [10] 1 none (some 5)).1

/-- C5 scenario affair whose `msg` field fails the predicate. -/
def affC5no : AffairInst := { ty := 10, fields := [("msg", .vStr "no")] }

/-- C5 scenario affair whose `msg` field satisfies the predicate. -/
def affC5yes : AffairInst := { ty := 10, fields := [("msg", .vStr "yes")] }

/-- C7 scenario environment: callbacks 1 and 2 return the disjoint-key
dicts `a ↦ 1` and `b ↦ 2`. -/
def envC7 : EmitEnv :=
  { baseEnv with
    behav := fun cb _ _ =>
      if cb = 1 then .ok (some (.vDict [("a", .vInt 1)]))
      else if cb = 2 then .ok (some (.vDict [("b", .vInt 2)]))
      else .ok none }

/-- C7 scenario registry: both callbacks on affair type 10, independent. -/
def regC7 : Registry :=
  (((Registry.empty 0).add [10] 1 none none).1.add [10] 2 none none).1

/-- C7 scenario affair with a chosen merge strategy. -/
def affC7 (strategy : MergeStrategy) : AffairInst :=
  { ty := 10, merge_strategy := strategy }

/-- C8 scenario environment: affair type 11 (`Child`) has parent 10
(`Parent`), whose parent 9 stands for the `MutableAffair` root; callback 1
returns `from_child ↦ true`, callback 2 returns `from_parent ↦ true`. -/
def envC8 : EmitEnv :=
  { baseEnv with
    behav := fun cb _ _ =>
      if cb = 1 then .ok (some (.vDict [("from_child", .vBool true)]))
      else if cb = 2 then .ok (some (.vDict [("from_parent", .vBool true)]))
      else .ok none,
    parentOf := fun t => if t = 11 then some 10 else if t = 10 then some 9 else none }

/-- C8 scenario registry: callback 1 on `Child` (11), callback 2 on
`Parent` (10). -/
def regC8 : Registry :=
  (((Registry.empty 0).add [11] 1 none none).1.add [10] 2 none none).1

/-- C9 scenario: a = 1 and d = 2 from the guardian, c = 3 `after [d]`,
e = 4 `after [c, a]`, all on affair type 10. -/
def c9Reg : Registry :=
  (((((Registry.empty 0).add [10] 1 none none).1.add [10] 2 none none).1.add
      [10] 3 (some [2]) none).1.add [10] 4 (some [3, 1]) none).1

/-- C9 scenario: the registry after removing d = 2 from affair type 10. -/
def c9After : Registry :=
  match c9Reg.remove (some [10]) (some 2) with
  | .ok r => r
  | .error _ => Registry.empty 0

/-!
## Helper lemmas
-/

theorem lookup_setKey {α β : Type} [DecidableEq α] (l : List (α × β)) (k : α)
    (v : β) : lookupKey (setKey l k v) k = some v := by
  induction l with
  | nil => simp [setKey, lookupKey]
  | cons hd tl ih =>
      obtain ⟨a, b⟩ := hd
      by_cases h : a = k
      · simp [setKey, lookupKey, h]
      · simp [setKey, lookupKey, h, ih]

theorem setKey_self {α β : Type} [DecidableEq α] (l : List (α × β)) (k : α)
    (v : β) (h : lookupKey l k = some v) : setKey l k v = l := by
  induction l with
  | nil => simp [lookupKey] at h
  | cons hd tl ih =>
      obtain ⟨a, b⟩ := hd
      by_cases ha : a = k
      · simp only [lookupKey, if_pos ha] at h
        injection h with h
        subst h
        simp [setKey, ha]
      · simp only [lookupKey, if_neg ha] at h
        simp [setKey, ha, ih h]

theorem mem_filterNew (visited : List Nat) (cs : List Nat) :
    ∀ acc x, x ∈ filterNew visited acc cs → x ∈ acc ∨ x ∈ cs := by
  induction cs with
  | nil => intro acc x h; simp only [filterNew] at h; exact Or.inl h
  | cons c cs ih =>
      intro acc x h
      simp only [filterNew] at h
      split at h
      · rcases ih _ _ h with h' | h'
        · exact Or.inl h'
        · exact Or.inr (List.mem_cons_of_mem _ h')
      · rcases ih _ _ h with h' | h'
        · rcases List.mem_append.mp h' with h'' | h''
          · exact Or.inl h''
          · simp only [List.mem_singleton] at h''
            exact Or.inr (h'' ▸ List.mem_cons_self _ _)
        · exact Or.inr (List.mem_cons_of_mem _ h')

theorem filterNew_not_vis (visited : List Nat) (cs : List Nat) :
    ∀ acc x, (∀ y ∈ acc, y ∉ visited) → x ∈ filterNew visited acc cs →
      x ∉ visited := by
  induction cs with
  | nil => intro acc x hacc h; simp only [filterNew] at h; exact hacc x h
  | cons c cs ih =>
      intro acc x hacc h
      simp only [filterNew] at h
      split at h
      · exact ih _ _ hacc h
      · rename_i hc
        refine ih _ _ ?_ h
        intro y hy
        rcases List.mem_append.mp hy with h' | h'
        · exact hacc y h'
        · simp only [List.mem_singleton] at h'
          subst h'
          exact fun hv => hc (Or.inl hv)

theorem mem_successors (g : DiGraph) (n x : Nat) (h : x ∈ successors g n) :
    (n, x) ∈ g.edges := by
  simp only [successors, List.mem_map, List.mem_filter] at h
  obtain ⟨⟨a, b⟩, ⟨hmem, heq⟩, rfl⟩ := h
  simp only [decide_eq_true_eq] at heq
  exact heq ▸ hmem

theorem mem_bfsLayersAux_cases (g : DiGraph) (fuel : Nat) :
    ∀ visited current L x, L ∈ bfsLayersAux g fuel visited current → x ∈ L →
      x ∈ current ∨ x ∉ visited := by
  induction fuel with
  | zero => intro _ _ L _ hL _; simp [bfsLayersAux] at hL
  | succ n ih =>
      intro visited current L x hL hx
      simp only [bfsLayersAux] at hL
      split at hL
      · simp at hL
      · rcases List.mem_cons.mp hL with rfl | hL'
        · exact Or.inl hx
        · rcases ih _ _ _ _ hL' hx with h | h
          · exact Or.inr (filterNew_not_vis _ _ _ _ (by simp) h)
          · exact Or.inr (fun hv => h (List.mem_append.mpr (Or.inl hv)))

theorem mem_bfsLayersAux_successor (g : DiGraph) (fuel : Nat) :
    ∀ visited current L x, L ∈ bfsLayersAux g fuel visited current → x ∈ L →
      x ∈ current ∨ ∃ n, x ∈ successors g n := by
  induction fuel with
  | zero => intro _ _ L _ hL _; simp [bfsLayersAux] at hL
  | succ n ih =>
      intro visited current L x hL hx
      simp only [bfsLayersAux] at hL
      split at hL
      · simp at hL
      · rcases List.mem_cons.mp hL with rfl | hL'
        · exact Or.inl hx
        · rcases ih _ _ _ _ hL' hx with h | h
          · rcases mem_filterNew _ _ _ _ h with h' | h'
            · simp at h'
            · obtain ⟨m, _, hm⟩ := List.mem_flatMap.mp h'
              exact Or.inr ⟨m, hm⟩
          · exact Or.inr h

theorem bfsLayersAux_pairwise (g : DiGraph) (fuel : Nat) :
    ∀ visited current, (∀ x ∈ current, x ∈ visited) →
      (bfsLayersAux g fuel visited current).Pairwise
        (fun l1 l2 => ∀ x ∈ l1, x ∉ l2) := by
  induction fuel with
  | zero => intro _ _ _; simp [bfsLayersAux]
  | succ n ih =>
      intro visited current hsub
      simp only [bfsLayersAux]
      split
      · simp
      · refine List.Pairwise.cons ?_ (ih _ _ ?_)
        · intro L hL x hxcur hxL
          rcases mem_bfsLayersAux_cases g n _ _ _ _ hL hxL with h | h
          · exact filterNew_not_vis _ _ _ _ (by simp) h (hsub x hxcur)
          · exact h (List.mem_append.mpr (Or.inl (hsub x hxcur)))
        · intro x hx
          exact List.mem_append.mpr (Or.inr hx)

theorem bfsLayers_cons (g : DiGraph) (s : Nat) :
    bfsLayers g [s] =
      [s] :: bfsLayersAux g g.nodes.length ([s] ++ expandLayer g [s] [s])
        (expandLayer g [s] [s]) := by
  simp [bfsLayers, bfsLayersAux]

theorem exec_order_no_guardian (r : Registry) (t : Nat) (L : List (List Nat))
    (h : r.exec_order t = some L) : ∀ l ∈ L, r.guardian ∉ l := by
  intro l hl hguard
  rcases hg : lookupKey r.graphs t with _ | g
  · simp only [Registry.exec_order, hg] at h
    injection h with h
    subst h
    simp at hl
  · simp only [Registry.exec_order, hg] at h
    by_cases hmem : r.guardian ∈ g.nodes
    · rw [if_pos hmem] at h
      injection h with h
      subst h
      rw [bfsLayers_cons, List.drop_succ_cons, List.drop_zero] at hl
      rcases mem_bfsLayersAux_cases g _ _ _ _ _ hl hguard with h' | h'
      · exact filterNew_not_vis _ _ _ _ (by simp) h' (by simp)
      · exact h' (List.mem_append.mpr (Or.inl (by simp)))
    · rw [if_neg hmem] at h
      exact absurd h (by simp)

theorem exec_order_pairwise (r : Registry) (t : Nat) (L : List (List Nat))
    (h : r.exec_order t = some L) :
    L.Pairwise (fun l1 l2 => ∀ x ∈ l1, x ∉ l2) := by
  rcases hg : lookupKey r.graphs t with _ | g
  · simp only [Registry.exec_order, hg] at h
    injection h with h
    subst h
    simp
  · simp only [Registry.exec_order, hg] at h
    by_cases hmem : r.guardian ∈ g.nodes
    · rw [if_pos hmem] at h
      injection h with h
      subst h
      rw [bfsLayers_cons, List.drop_succ_cons, List.drop_zero]
      exact bfsLayersAux_pairwise g _ _ _
        (fun x hx => List.mem_append.mpr (Or.inr hx))
    · rw [if_neg hmem] at h
      exact absurd h (by simp)

theorem exec_order_no_orphan (r : Registry) (t : Nat) (g : DiGraph)
    (L : List (List Nat)) (c : Nat) (hg : lookupKey r.graphs t = some g)
    (hc : ∀ u, (u, c) ∉ g.edges)
    (h : r.exec_order t = some L) : ∀ l ∈ L, c ∉ l := by
  intro l hl hcl
  simp only [Registry.exec_order, hg] at h
  by_cases hmem : r.guardian ∈ g.nodes
  · rw [if_pos hmem] at h
    injection h with h
    subst h
    rw [bfsLayers_cons, List.drop_succ_cons, List.drop_zero] at hl
    rcases mem_bfsLayersAux_successor g _ _ _ _ _ hl hcl with h' | h'
    · rcases mem_filterNew _ _ _ _ h' with h'' | h''
      · simp at h''
      · obtain ⟨m, _, hm⟩ := List.mem_flatMap.mp h''
        exact hc m (mem_successors g m c hm)
    · obtain ⟨n, hn⟩ := h'
      exact hc n (mem_successors g n c hn)
  · rw [if_neg hmem] at h
    exact absurd h (by simp)

theorem syncCb_trace (env : EmitEnv) (reg : Registry)
    (emitRec : AffairInst → EmitSt → Except PyErr (Dict × EmitSt))
    (affair : AffairInst) (t cb : Nat) (merged m2 : Dict) (s s2 : EmitSt)
    (hb : ∀ k, ∃ v, env.behav cb k affair = CbRes.ok v)
    (h : syncCb env reg emitRec affair t cb merged s = .ok (m2, s2)) :
    s2.2 = s.2 ++
      (if reg.should_fire env.preds cb t affair then [(t, cb)] else []) := by
  unfold syncCb at h
  cases hf : reg.should_fire env.preds cb t affair with
  | false =>
      simp only [hf, Bool.false_eq_true, if_false] at h
      injection h with h
      obtain ⟨h1, h2⟩ := Prod.mk.inj h
      subst h2
      simp
  | true =>
      simp only [hf, if_true] at h
      split at h
      · split at h
        · injection h with h
          obtain ⟨h1, h2⟩ := Prod.mk.inj h
          subst h2
          simp
        · exact Except.noConfusion h
      · rename_i msg tyName heq
        obtain ⟨v, hv⟩ := hb (getCount s.1 cb)
        rw [heq] at hv
        exact CbRes.noConfusion hv

theorem syncLayer_trace (env : EmitEnv) (reg : Registry)
    (emitRec : AffairInst → EmitSt → Except PyErr (Dict × EmitSt))
    (affair : AffairInst) (t : Nat) (cbs : List Nat) :
    ∀ (merged m2 : Dict) (s s2 : EmitSt),
      (∀ cb ∈ cbs, ∀ k, ∃ v, env.behav cb k affair = CbRes.ok v) →
      syncLayer env reg emitRec affair t cbs merged s = .ok (m2, s2) →
      s2.2 = s.2 ++ (cbs.filter
        (fun cb => reg.should_fire env.preds cb t affair)).map
          (fun cb => (t, cb)) := by
  induction cbs with
  | nil =>
      intro merged m2 s s2 _ h
      unfold syncLayer at h
      injection h with h
      obtain ⟨h1, h2⟩ := Prod.mk.inj h
      subst h2
      simp
  | cons cb rest ih =>
      intro merged m2 s s2 hb h
      unfold syncLayer at h
      cases hcb : syncCb env reg emitRec affair t cb merged s with
      | error e => rw [hcb] at h; exact Except.noConfusion h
      | ok p =>
          obtain ⟨m1, s1⟩ := p
          rw [hcb] at h
          have h1 := syncCb_trace env reg emitRec affair t cb merged m1 s s1
            (hb cb (List.mem_cons_self cb rest)) hcb
          have h2 := ih m1 m2 s1 s2
            (fun cb' hm k => hb cb' (List.mem_cons_of_mem cb hm) k) h
          rw [h2, h1]
          cases hf : reg.should_fire env.preds cb t affair <;>
            simp [hf, List.filter_cons]

theorem syncLayers_trace (env : EmitEnv) (reg : Registry)
    (emitRec : AffairInst → EmitSt → Except PyErr (Dict × EmitSt))
    (affair : AffairInst) (t : Nat) (layers : List (List Nat)) :
    ∀ (merged m2 : Dict) (s s2 : EmitSt),
      (∀ cb ∈ layers.flatten, ∀ k, ∃ v, env.behav cb k affair = CbRes.ok v) →
      syncLayers env reg emitRec affair t layers merged s = .ok (m2, s2) →
      s2.2 = s.2 ++ (layers.flatten.filter
        (fun cb => reg.should_fire env.preds cb t affair)).map
          (fun cb => (t, cb)) := by
  induction layers with
  | nil =>
      intro merged m2 s s2 _ h
      unfold syncLayers at h
      injection h with h
      obtain ⟨h1, h2⟩ := Prod.mk.inj h
      subst h2
      simp
  | cons layer rest ih =>
      intro merged m2 s s2 hb h
      unfold syncLayers at h
      cases hl : syncLayer env reg emitRec affair t layer merged s with
      | error e => rw [hl] at h; exact Except.noConfusion h
      | ok p =>
          obtain ⟨m1, s1⟩ := p
          rw [hl] at h
          have h1 := syncLayer_trace env reg emitRec affair t layer merged m1 s s1
            (fun cb hm k => hb cb (by simp [hm]) k) hl
          have h2 := ih m1 m2 s1 s2 (fun cb hm k => hb cb (by simp [hm]) k) h
          rw [h2, h1]
          simp

theorem asyncCb_trace (env : EmitEnv) (reg : Registry)
    (emitRec : AffairInst → EmitSt → Except PyErr (Dict × EmitSt))
    (affair : AffairInst) (t cb : Nat) (merged m2 : Dict) (s s2 : EmitSt)
    (hb : ∀ k, ∃ v, env.behav cb k affair = CbRes.ok v)
    (h : asyncCb env reg emitRec affair t cb merged s = .ok (m2, s2)) :
    s2.2 = s.2 ++
      (if reg.should_fire env.preds cb t affair then [(t, cb)] else []) := by
  unfold asyncCb at h
  cases hf : reg.should_fire env.preds cb t affair with
  | false =>
      simp only [hf, Bool.false_eq_true, if_false] at h
      injection h with h
      obtain ⟨h1, h2⟩ := Prod.mk.inj h
      subst h2
      simp
  | true =>
      simp only [hf, if_true] at h
      split at h
      · split at h
        · injection h with h
          obtain ⟨h1, h2⟩ := Prod.mk.inj h
          subst h2
          simp
        · exact Except.noConfusion h
      · rename_i msg tyName heq
        obtain ⟨v, hv⟩ := hb (getCount s.1 cb)
        rw [heq] at hv
        exact CbRes.noConfusion hv

theorem asyncLayer_trace (env : EmitEnv) (reg : Registry)
    (emitRec : AffairInst → EmitSt → Except PyErr (Dict × EmitSt))
    (affair : AffairInst) (t : Nat) (cbs : List Nat) :
    ∀ (merged m2 : Dict) (s s2 : EmitSt),
      (∀ cb ∈ cbs, ∀ k, ∃ v, env.behav cb k affair = CbRes.ok v) →
      asyncLayer env reg emitRec affair t cbs merged s = .ok (m2, s2) →
      s2.2 = s.2 ++ (cbs.filter
        (fun cb => reg.should_fire env.preds cb t affair)).map
          (fun cb => (t, cb)) := by
  induction cbs with
  | nil =>
      intro merged m2 s s2 _ h
      unfold asyncLayer at h
      injection h with h
      obtain ⟨h1, h2⟩ := Prod.mk.inj h
      subst h2
      simp
  | cons cb rest ih =>
      intro merged m2 s s2 hb h
      unfold asyncLayer at h
      cases hcb : asyncCb env reg emitRec affair t cb merged s with
      | error e => rw [hcb] at h; exact Except.noConfusion h
      | ok p =>
          obtain ⟨m1, s1⟩ := p
          rw [hcb] at h
          have h1 := asyncCb_trace env reg emitRec affair t cb merged m1 s s1
            (hb cb (List.mem_cons_self cb rest)) hcb
          have h2 := ih m1 m2 s1 s2
            (fun cb' hm k => hb cb' (List.mem_cons_of_mem cb hm) k) h
          rw [h2, h1]
          cases hf : reg.should_fire env.preds cb t affair <;>
            simp [hf, List.filter_cons]

theorem asyncLayers_trace (env : EmitEnv) (reg : Registry)
    (emitRec : AffairInst → EmitSt → Except PyErr (Dict × EmitSt))
    (affair : AffairInst) (t : Nat) (layers : List (List Nat)) :
    ∀ (merged m2 : Dict) (s s2 : EmitSt),
      (∀ cb ∈ layers.flatten, ∀ k, ∃ v, env.behav cb k affair = CbRes.ok v) →
      asyncLayers env reg emitRec affair t layers merged s = .ok (m2, s2) →
      s2.2 = s.2 ++ (layers.flatten.filter
        (fun cb => reg.should_fire env.preds cb t affair)).map
          (fun cb => (t, cb)) := by
  induction layers with
  | nil =>
      intro merged m2 s s2 _ h
      unfold asyncLayers at h
      injection h with h
      obtain ⟨h1, h2⟩ := Prod.mk.inj h
      subst h2
      simp
  | cons layer rest ih =>
      intro merged m2 s s2 hb h
      unfold asyncLayers at h
      cases hl : asyncLayer env reg emitRec affair t layer merged s with
      | error e => rw [hl] at h; exact Except.noConfusion h
      | ok p =>
          obtain ⟨m1, s1⟩ := p
          rw [hl] at h
          have h1 := asyncLayer_trace env reg emitRec affair t layer merged m1 s s1
            (fun cb hm k => hb cb (by simp [hm]) k) hl
          have h2 := ih m1 m2 s1 s2 (fun cb hm k => hb cb (by simp [hm]) k) h
          rw [h2, h1]
          simp

/-!
## Claim theorems
-/

/-- Claim C1: the spec asserts that for every acyclic registration set
`exec_order` returns a layering in which every callback sits strictly after
all of its `after` dependencies.  The code layers by breadth-first
(shortest-path) distance from the guardian, so in the acyclic diamond
a ← b ← d, a ← c, d ← c the callback c (= 4) lands in layer 1 while its
declared dependency d (= 3) lands in layer 2: the dependency runs after the
dependent, contradicting the claim (and `exec_order`'s own docstring
"dependencies before dependents"). -/
theorem C1_bfs_layering_violates_dependencies :
    c1Step1.2 = none ∧ c1Step2.2 = none ∧ c1Step3.2 = none ∧ c1Step4.2 = none ∧
    hasCycle (getGraph c1Step4.1 10) = false ∧
    (3, 4) ∈ (getGraph c1Step4.1 10).edges ∧
    c1Step4.1.exec_order 10 = some [[1], [2, 4], [3]] ∧
    layerIdx [[1], [2, 4], [3]] 4 = some 1 ∧
    layerIdx [[1], [2, 4], [3]] 3 = some 2 ∧
    ¬ (1 : Nat) > 2 :=
  ⟨rfl, rfl, rfl, rfl, by decide, by decide, rfl, by decide, by decide, by decide⟩

/-- Claim C2: the spec asserts the synchronous engine merges callback
results under the emitted affair's `merge_strategy`, so that `list_merge`
over results `k ↦ 1` and `k ↦ 2` yields `k ↦ [1, 2]`.  The synchronous
`emit` calls `merge_dict(merged_result, result)` without passing the
strategy, so it always merges under the default `raise` strategy and the
emission fails with `KeyConflictError` instead; the last two conjuncts show
the merge the claim (and the repo's own tests) expect. -/
theorem C2_sync_engine_drops_merge_strategy :
    affC2.merge_strategy = .list_merge ∧
    emitSyncF envC2 regC2 3 affC2 ([], []) = .error (.keyConflict "k") ∧
    merge_dict [] [("k", .vInt 1)] .list_merge "1" =
      .ok [("k", .vList [.vInt 1])] ∧
    merge_dict [("k", .vList [.vInt 1])] [("k", .vInt 2)] .list_merge "2" =
      .ok [("k", .vList [.vInt 1, .vInt 2])] :=
  ⟨rfl, rfl, rfl, rfl⟩

/-- Claim C3: the spec asserts a registration rejected for a cyclic `after`
set leaves `exec_order` unchanged for every affair type, including when the
callback was already a node with edges and when several event types are
named.  The rollback `graph.remove_node(callback)` removes the whole node
with its pre-existing edges (scenario A: `exec_order` collapses from
`[[1], [2]]` to `[]`), and a multi-type `add` does not undo mutations to
earlier types (scenario B: type 10 gains the callback, type 11 loses its
edges). -/
theorem C3_cycle_rejection_mutates_registry :
    c3A2.1.exec_order 10 = some [[1], [2]] ∧
    c3A3.2 = some (.cyclicDependency "cycle") ∧
    c3A3.1.exec_order 10 = some [] ∧
    c3A3.1.exec_order 10 ≠ c3A2.1.exec_order 10 ∧
    c3B3.1.exec_order 10 = some [[1]] ∧
    c3B3.1.exec_order 11 = some [[2], [1]] ∧
    c3B4.2 = some (.cyclicDependency "cycle") ∧
    c3B4.1.exec_order 10 = some [[1], [2]] ∧
    c3B4.1.exec_order 11 = some [] ∧
    c3B4.1.exec_order 10 ≠ c3B3.1.exec_order 10 ∧
    c3B4.1.exec_order 11 ≠ c3B3.1.exec_order 11 :=
  ⟨rfl, rfl, rfl, by decide, rfl, rfl, rfl, rfl, rfl, by decide, by decide⟩

/-- Claim C10: for every registry state reachable through `add` and
`remove`, `exec_order` never includes the guardian in a returned layer, and
the returned layers are pairwise disjoint. -/
theorem C10_exec_order_guardian_free_and_disjoint (r : Registry)
    (hr : Reachable r) (t : Nat) (L : List (List Nat))
    (h : r.exec_order t = some L) :
    (∀ l ∈ L, r.guardian ∉ l) ∧
    L.Pairwise (fun l1 l2 => ∀ x ∈ l1, x ∉ l2) :=
  ⟨exec_order_no_guardian r t L h, exec_order_pairwise r t L h⟩

/-- Witness for C10 at the concrete diamond registry of the C1 scenario. -/
theorem C10_witness :
    Reachable c1Step4.1 ∧ c1Step4.1.exec_order 10 = some [[1], [2, 4], [3]] ∧
    ((∀ l ∈ [[1], [2, 4], [3]], c1Step4.1.guardian ∉ l) ∧
      ([[1], [2, 4], [3]] : List (List Nat)).Pairwise
        (fun l1 l2 => ∀ x ∈ l1, x ∉ l2)) := by
  have hr : Reachable c1Step4.1 :=
    Reachable.addStep _ _ _ _ _ (Reachable.addStep _ _ _ _ _
      (Reachable.addStep _ _ _ _ _ (Reachable.addStep _ _ _ _ _
        (Reachable.start 0))))
  exact ⟨hr, rfl,
    C10_exec_order_guardian_free_and_disjoint c1Step4.1 hr 10 _ rfl⟩

/-- Claim C9, counterexample: after removing d (= 2), the sole prerequisite
of c (= 3), the callback e (= 4) still transitively depends on c (the edge
(3, 4) remains) and yet appears in `exec_order`, because e kept its second
prerequisite a (= 1); so `exec_order` does not omit every callback that
transitively depends on c. -/
theorem C9_counterexample :
    c9Reg.remove (some [10]) (some 2) = .ok c9After ∧
    (getGraph c9Reg 10).edges.filter (fun e => e.2 = 3) = [(2, 3)] ∧
    3 ∈ (getGraph c9After 10).nodes ∧
    c9After.exec_order 10 = some [[1], [4]] ∧
    (3, 4) ∈ (getGraph c9After 10).edges ∧
    ¬ (∀ l ∈ ([[1], [4]] : List (List Nat)), 4 ∉ l) :=
  ⟨rfl, by decide, by decide, rfl, by decide, by decide⟩

/-- Claim C9, amended: when c's only incoming dependency edge comes from d,
removing d succeeds without error, c remains a node of the type's graph
(with no incoming edges — it is not re-wired to the guardian), and every
subsequent `exec_order` for that type silently omits c; a callback
transitively depending on c is omitted only when the removal leaves it
unreachable from the guardian, not in general. -/
theorem C9_remove_strands_single_prereq (r : Registry) (t c d : Nat)
    (g : DiGraph) (hg : lookupKey r.graphs t = some g) (hcd : c ≠ d)
    (hdn : d ∈ g.nodes) (hcn : c ∈ g.nodes)
    (hin : ∀ u, (u, c) ∈ g.edges → u = d) :
    ∃ r2, r.remove (some [t]) (some d) = .ok r2 ∧
      (∃ g2, lookupKey r2.graphs t = some g2 ∧ c ∈ g2.nodes ∧
        ∀ u, (u, c) ∉ g2.edges) ∧
      ∀ L, r2.exec_order t = some L → ∀ l ∈ L, c ∉ l := by
  have hcn2 : c ∈ (removeNode g d).nodes := by
    simp only [removeNode]
    exact List.mem_erase_of_ne hcd |>.mpr hcn
  have hlen : ¬ (removeNode g d).nodes.length = 0 := by
    intro h0
    rw [List.length_eq_zero] at h0
    rw [h0] at hcn2
    exact absurd hcn2 (List.not_mem_nil c)
  have hro : removeOne r t d = putGraph r t (removeNode g d) := by
    simp only [removeOne, hg]
    rw [if_pos hdn]
    show (if (removeNode g d).nodes.length = 0 then dropGraph r t
          else putGraph r t (removeNode g d)) = putGraph r t (removeNode g d)
    rw [if_neg hlen]
  refine ⟨_, rfl, ?_, ?_⟩
  · refine ⟨removeNode g d, ?_, hcn2, ?_⟩
    · show lookupKey (removeOne r t d).graphs t = some (removeNode g d)
      rw [hro]
      exact lookup_setKey r.graphs t (removeNode g d)
    · intro u hu
      simp only [removeNode, List.mem_filter] at hu
      obtain ⟨hmem, hok⟩ := hu
      simp only [Bool.and_eq_true, decide_eq_true_eq] at hok
      exact hok.1 (hin u hmem)
  · intro L hL l hl
    have hgr : lookupKey
        ({ removeOne r t d with
           whens := (removeOne r t d).whens.filter
             (fun e => e.1 ≠ (t, d)) } : Registry).graphs t =
        some (removeNode g d) := by
      show lookupKey (removeOne r t d).graphs t = some (removeNode g d)
      rw [hro]
      exact lookup_setKey r.graphs t (removeNode g d)
    refine exec_order_no_orphan _ t (removeNode g d) L c hgr ?_ hL l hl
    intro u hu
    simp only [removeNode, List.mem_filter] at hu
    obtain ⟨hmem, hok⟩ := hu
    simp only [Bool.and_eq_true, decide_eq_true_eq] at hok
    exact hok.1 (hin u hmem)

/-- Witness for the amended C9 at the concrete scenario registry. -/
theorem C9_witness :
    ∃ r2, c9Reg.remove (some [10]) (some 2) = .ok r2 ∧
      (∃ g2, lookupKey r2.graphs 10 = some g2 ∧ 3 ∈ g2.nodes ∧
        ∀ u, (u, 3) ∉ g2.edges) ∧
      ∀ L, r2.exec_order 10 = some L → ∀ l ∈ L, 3 ∉ l :=
  C9_remove_strands_single_prereq c9Reg 10 3 2 (getGraph c9Reg 10) rfl
    (by decide) (by decide) (by decide)
    (by
      intro u hu
      have hgr : getGraph c9Reg 10 =
          ⟨[0, 1, 2, 3, 4], [(0, 1), (0, 2), (2, 3), (3, 4), (1, 4)]⟩ := rfl
      rw [hgr] at hu
      simp only [List.mem_cons, List.not_mem_nil, or_false, Prod.mk.injEq] at hu
      rcases hu with ⟨h1, h2⟩ | ⟨h1, h2⟩ | ⟨h1, h2⟩ | ⟨h1, h2⟩ | ⟨h1, h2⟩ <;>
        omega)

/-- Claim C4: on a callback exception the engine emits a synthetic
`CallbackErrorAffair` and reads `retry` (default 0, `int()`-coerced, a
non-coercible value is a `TypeError`), `deadletter` (default false) and
`silent` (default false), applying the fixed priority retry → deadletter →
silent → re-raise; the retry loop returns the callback's result on its
first success.  The final conjuncts replay the spec's scenario: a callback
failing once then returning `attempt ↦ 2` with a handler returning
`retry ↦ 2` makes `emit` return `attempt ↦ 2` after exactly two
invocations of the callback. -/
theorem C4_error_recovery_protocol :
    read_error_policy [] = .ok (0, false, false)
  ∧ (∀ policy v n, lookupKey policy "retry" = some v → toInt v = .ok n →
      ∃ dl si, read_error_policy policy = .ok (n, dl, si))
  ∧ (∀ policy v, lookupKey policy "retry" = some v →
      (∀ n, toInt v ≠ .ok n) →
      read_error_policy policy = .error (.typeErr "retry must be int-convertible"))
  ∧ (∀ env cb t affair msg retry s v s2,
      retryCb env cb t affair (Int.toNat retry) s = (some v, s2) →
      ∀ dl si, apply_error_policy env cb t affair msg retry dl si s = .ok (v, s2))
  ∧ (∀ env cb t affair msg retry s s2,
      retryCb env cb t affair (Int.toNat retry) s = (none, s2) →
      ∀ si, apply_error_policy env cb t affair msg retry true si s = .ok (none, s2))
  ∧ (∀ env cb t affair msg retry s s2,
      retryCb env cb t affair (Int.toNat retry) s = (none, s2) →
      apply_error_policy env cb t affair msg retry false true s = .ok (none, s2))
  ∧ (∀ env cb t affair msg retry s s2,
      retryCb env cb t affair (Int.toNat retry) s = (none, s2) →
      apply_error_policy env cb t affair msg retry false false s =
        .error (.userExc msg))
  ∧ emitSyncF envC4 regC4 3 affC4 ([], []) =
      .ok ([("attempt", .vInt 2)], ([(1, 2), (2, 1)], [(10, 1), (99, 2), (10, 1)]))
  ∧ getCount [(1, 2), (2, 1)] 1 = 2 := by
  refine ⟨rfl, ?_, ?_, ?_, ?_, ?_, ?_, rfl, rfl⟩
  · intro policy v n h1 h2
    unfold read_error_policy
    rw [h1]
    simp only [Option.getD_some]
    rw [h2]
    exact ⟨_, _, rfl⟩
  · intro policy v h1 h2
    unfold read_error_policy
    rw [h1]
    simp only [Option.getD_some]
    cases ht : toInt v with
    | ok n => exact absurd ht (h2 n)
    | error e => rfl
  · intro env cb t affair msg retry s v s2 hr dl si
    unfold apply_error_policy
    rw [hr]
  · intro env cb t affair msg retry s s2 hr si
    unfold apply_error_policy
    rw [hr]
    simp
  · intro env cb t affair msg retry s s2 hr
    unfold apply_error_policy
    rw [hr]
    simp
  · intro env cb t affair msg retry s s2 hr
    unfold apply_error_policy
    rw [hr]
    simp

/-- Witness for C4: the hypothesis-carrying conjuncts instantiated at
concrete inputs (an `int()`-coercible string policy value, a non-coercible
list value, a successful first retry, and exhausted retries under each of
the three terminal policies). -/
theorem C4_witness :
    (∃ dl si, read_error_policy [("retry", .vInt 2)] = .ok (2, dl, si))
  ∧ read_error_policy [("retry", .vList [])] =
      .error (.typeErr "retry must be int-convertible")
  ∧ apply_error_policy envC4 2 10 affC4 "m" 1 false false ([], []) =
      .ok (some (.vDict [("retry", .vInt 2)]), ([(2, 1)], [(10, 2)]))
  ∧ apply_error_policy envC4 1 10 affC4 "m" 0 true false ([], []) =
      .ok (none, ([], []))
  ∧ apply_error_policy envC4 1 10 affC4 "m" 0 false true ([], []) =
      .ok (none, ([], []))
  ∧ apply_error_policy envC4 1 10 affC4 "m" 0 false false ([], []) =
      .error (.userExc "m") :=
  ⟨C4_error_recovery_protocol.2.1 [("retry", .vInt 2)] (.vInt 2) 2 rfl rfl,
   C4_error_recovery_protocol.2.2.1 [("retry", .vList [])] (.vList [])
     rfl (fun n h => Except.noConfusion h),
   C4_error_recovery_protocol.2.2.2.1 envC4 2 10 affC4 "m" 1 ([], [])
     (some (.vDict [("retry", .vInt 2)])) (([(2, 1)], [(10, 2)])) rfl false false,
   C4_error_recovery_protocol.2.2.2.2.1 envC4 1 10 affC4 "m" 0 ([], [])
     ([], []) rfl false,
   C4_error_recovery_protocol.2.2.2.2.2.1 envC4 1 10 affC4 "m" 0 ([], [])
     ([], []) rfl,
   C4_error_recovery_protocol.2.2.2.2.2.2.1 envC4 1 10 affC4 "m" 0 ([], [])
     ([], []) rfl⟩

/-- Claim C5: a callback registered with a `when` predicate is invoked
exactly when the predicate holds of the affair instance and skipped
otherwise, on both engines: whenever an emission (with `emit_up` false)
succeeds without callback exceptions, its invocation trace is precisely the
execution layers filtered by `should_fire`; `should_fire` evaluates the
registered predicate; and `register`/`add` accepts and stores a
`when`-carrying registration (storage modelled from the spec, see
`Registry.whens`). -/
theorem C5_when_predicate_filtering :
    (∀ (env : EmitEnv) (reg : Registry) (affair : AffairInst) (fuel : Nat)
       (layers : List (List Nat)) (m : Dict) (c2 : Counts)
       (tr2 : List (Nat × Nat)),
      affair.emit_up = false →
      reg.exec_order affair.ty = some layers →
      (∀ cb ∈ layers.flatten, ∀ k, ∃ v, env.behav cb k affair = CbRes.ok v) →
      emitSyncF env reg (fuel + 1) affair ([], []) = .ok (m, (c2, tr2)) →
      tr2 = (layers.flatten.filter
        (fun cb => reg.should_fire env.preds cb affair.ty affair)).map
          (fun cb => (affair.ty, cb)))
  ∧ (∀ (env : EmitEnv) (reg : Registry) (affair : AffairInst) (fuel : Nat)
       (layers : List (List Nat)) (m : Dict) (c2 : Counts)
       (tr2 : List (Nat × Nat)),
      affair.emit_up = false →
      reg.exec_order affair.ty = some layers →
      (∀ cb ∈ layers.flatten, ∀ k, ∃ v, env.behav cb k affair = CbRes.ok v) →
      emitAsyncF env reg (fuel + 1) affair ([], []) = .ok (m, (c2, tr2)) →
      tr2 = (layers.flatten.filter
        (fun cb => reg.should_fire env.preds cb affair.ty affair)).map
          (fun cb => (affair.ty, cb)))
  ∧ (∀ {A : Type} (r : Registry) (preds : Nat → A → Bool) (cb t : Nat)
       (a : A) (p : Nat),
      lookupKey r.whens (t, cb) = some p →
      r.should_fire preds cb t a = preds p a)
  ∧ ((Registry.empty 0).add [10] 1 none (some 5)).2 = none
  ∧ lookupKey ((Registry.empty 0).add [10] 1 none (some 5)).1.whens (10, 1) =
      some 5 := by
  refine ⟨?_, ?_, ?_, rfl, rfl⟩
  · intro env reg affair fuel layers m c2 tr2 hup hexec hb h
    unfold emitSyncF at h
    rw [show resolve_affair_types env (fuel + 1) affair = [affair.ty] by
      simp [resolve_affair_types, hup]] at h
    unfold syncTypes at h
    split at h
    · rename_i heq
      rw [hexec] at heq
      exact Option.noConfusion heq
    · rename_i layers2 heq
      rw [hexec] at heq
      injection heq with heq
      subst heq
      split at h
      · rename_i m1 s1 heq2
        unfold syncTypes at h
        injection h with h
        obtain ⟨h1, h2⟩ := Prod.mk.inj h
        have := syncLayers_trace env reg (emitSyncF env reg fuel) affair
          affair.ty layers [] m1 ([], []) s1 hb heq2
        rw [h2] at this
        simpa using this
      · exact Except.noConfusion h
  · intro env reg affair fuel layers m c2 tr2 hup hexec hb h
    unfold emitAsyncF at h
    rw [show resolve_affair_types env (fuel + 1) affair = [affair.ty] by
      simp [resolve_affair_types, hup]] at h
    unfold asyncTypes at h
    split at h
    · rename_i heq
      rw [hexec] at heq
      exact Option.noConfusion heq
    · rename_i layers2 heq
      rw [hexec] at heq
      injection heq with heq
      subst heq
      split at h
      · rename_i m1 s1 heq2
        unfold asyncTypes at h
        injection h with h
        obtain ⟨h1, h2⟩ := Prod.mk.inj h
        have := asyncLayers_trace env reg (emitAsyncF env reg fuel) affair
          affair.ty layers [] m1 ([], []) s1 hb heq2
        rw [h2] at this
        simpa using this
      · exact Except.noConfusion h
  · intro A r preds cb t a p hp
    unfold Registry.should_fire
    rw [hp]

/-- Witness for C5 on the concrete predicate scenario: for the affair whose
`msg` is "no" the predicate fails and the trace is empty; for the affair
whose `msg` is "yes" the predicate holds and the callback is invoked. -/
theorem C5_witness :
    affC5no.emit_up = false
  ∧ regC5.exec_order affC5no.ty = some [[1]]
  ∧ emitSyncF envC5 regC5 3 affC5no ([], []) = .ok ([], ([], []))
  ∧ ([] : List (Nat × Nat)) = (([[1]] : List (List Nat)).flatten.filter
      (fun cb => regC5.should_fire envC5.preds cb affC5no.ty affC5no)).map
        (fun cb => (affC5no.ty, cb))
  ∧ emitSyncF envC5 regC5 3 affC5yes ([], []) =
      .ok ([("v", .vInt 1)], ([(1, 1)], [(10, 1)]))
  ∧ ([(10, 1)] : List (Nat × Nat)) = (([[1]] : List (List Nat)).flatten.filter
      (fun cb => regC5.should_fire envC5.preds cb affC5yes.ty affC5yes)).map
        (fun cb => (affC5yes.ty, cb)) := by
  have hb : ∀ (a : AffairInst), ∀ cb ∈ ([[1]] : List (List Nat)).flatten,
      ∀ k, ∃ v, envC5.behav cb k a = CbRes.ok v := by
    intro a cb _ k
    by_cases h : cb = 1
    · subst h
      exact ⟨some (.vDict [("v", .vInt 1)]), by simp [envC5]⟩
    · exact ⟨none, by simp [envC5, h]⟩
  refine ⟨rfl, rfl, rfl, ?_, rfl, ?_⟩
  · exact C5_when_predicate_filtering.1 envC5 regC5 affC5no 2 [[1]] [] [] []
      rfl rfl (hb affC5no) rfl
  · exact C5_when_predicate_filtering.1 envC5 regC5 affC5yes 2 [[1]]
      [("v", .vInt 1)] [(1, 1)] [(10, 1)] rfl rfl (hb affC5yes) rfl

/-- Claim C6: `merge_dict` behaves per key as the reference definition:
it folds the source pairs one at a time; a key absent from the target is
inserted wrapped (`list_merge` a one-element list, `dict_merge` a one-entry
dict keyed by `source_name`, others the raw value); a present key fails the
whole merge naming the key under `raise`, keeps the existing value under
`keep`, replaces it under `override`, appends to the existing list under
`list_merge` and sets `existing[source_name]` under `dict_merge`. -/
theorem C6_merge_reference_behaviour :
    (∀ (target source : Dict) (strategy : MergeStrategy) (name : String),
      merge_dict target source strategy name =
        source.foldlM (mergeStep strategy name) target)
  ∧ (∀ (target : Dict) (k : String) (v : Value) (strategy : MergeStrategy)
       (name : String), lookupKey target k = none →
      merge_dict target [(k, v)] strategy name =
        .ok (setKey target k (wrap_value strategy v name)))
  ∧ (∀ (v : Value) (name : String), wrap_value .list_merge v name = .vList [v])
  ∧ (∀ (v : Value) (name : String),
      wrap_value .dict_merge v name = .vDict [(name, v)])
  ∧ (∀ (v : Value) (name : String) (strategy : MergeStrategy),
      strategy ≠ .list_merge → strategy ≠ .dict_merge →
      wrap_value strategy v name = v)
  ∧ (∀ (target : Dict) (k : String) (v e : Value) (name : String),
      lookupKey target k = some e →
      merge_dict target [(k, v)] .raiseS name = .error (.keyConflict k))
  ∧ (∀ (target : Dict) (k : String) (v e : Value) (name : String),
      lookupKey target k = some e →
      merge_dict target [(k, v)] .keep name = .ok target)
  ∧ (∀ (target : Dict) (k : String) (v e : Value) (name : String),
      lookupKey target k = some e →
      merge_dict target [(k, v)] .override name = .ok (setKey target k v))
  ∧ (∀ (target : Dict) (k : String) (v : Value) (name : String)
       (xs : List Value), lookupKey target k = some (.vList xs) →
      merge_dict target [(k, v)] .list_merge name =
        .ok (setKey target k (.vList (xs ++ [v]))))
  ∧ (∀ (target : Dict) (k : String) (v : Value) (name : String)
       (xs : List (String × Value)), lookupKey target k = some (.vDict xs) →
      merge_dict target [(k, v)] .dict_merge name =
        .ok (setKey target k (.vDict (setKey xs name v)))) := by
  refine ⟨fun _ _ _ _ => rfl, ?_, fun _ _ => rfl, fun _ _ => rfl, ?_, ?_, ?_,
    ?_, ?_, ?_⟩
  · intro target k v strategy name h
    show mergeStep strategy name target (k, v) >>= _ = _
    unfold mergeStep
    rw [h]
    rfl
  · intro v name strategy h1 h2
    cases strategy with
    | list_merge => exact absurd rfl h1
    | dict_merge => exact absurd rfl h2
    | _ => rfl
  · intro target k v e name h
    show mergeStep .raiseS name target (k, v) >>= _ = _
    unfold mergeStep
    rw [h]
    rfl
  · intro target k v e name h
    show mergeStep .keep name target (k, v) >>= _ = _
    unfold mergeStep
    rw [h]
    show Except.ok (setKey target k e) = Except.ok target
    rw [setKey_self target k e h]
  · intro target k v e name h
    show mergeStep .override name target (k, v) >>= _ = _
    unfold mergeStep
    rw [h]
    rfl
  · intro target k v name xs h
    show mergeStep .list_merge name target (k, v) >>= _ = _
    unfold mergeStep
    rw [h]
    rfl
  · intro target k v name xs h
    show mergeStep .dict_merge name target (k, v) >>= _ = _
    unfold mergeStep
    rw [h]
    rfl

/-- Witness for C6: the hypothesis-carrying conjuncts instantiated at a
concrete one-entry target. -/
theorem C6_witness :
    merge_dict [("x", Value.vInt 7)] [("k", .vInt 1)] .keep "s" =
      .ok [("x", .vInt 7), ("k", .vInt 1)]
  ∧ wrap_value .keep (.vInt 1) "s" = .vInt 1
  ∧ merge_dict [("k", Value.vInt 7)] [("k", .vInt 1)] .raiseS "s" =
      .error (.keyConflict "k")
  ∧ merge_dict [("k", Value.vInt 7)] [("k", .vInt 1)] .keep "s" =
      .ok [("k", .vInt 7)]
  ∧ merge_dict [("k", Value.vInt 7)] [("k", .vInt 1)] .override "s" =
      .ok [("k", .vInt 1)]
  ∧ merge_dict [("k", Value.vList [.vInt 7])] [("k", .vInt 1)] .list_merge "s" =
      .ok [("k", .vList [.vInt 7, .vInt 1])]
  ∧ merge_dict [("k", Value.vDict [("r", .vInt 7)])] [("k", .vInt 1)]
      .dict_merge "s" = .ok [("k", .vDict [("r", .vInt 7), ("s", .vInt 1)])] :=
  ⟨C6_merge_reference_behaviour.2.1 [("x", .vInt 7)] "k" (.vInt 1) .keep "s" rfl,
   C6_merge_reference_behaviour.2.2.2.2.1 (.vInt 1) "s" .keep
     (fun h => MergeStrategy.noConfusion h) (fun h => MergeStrategy.noConfusion h),
   C6_merge_reference_behaviour.2.2.2.2.2.1 [("k", .vInt 7)] "k" (.vInt 1)
     (.vInt 7) "s" rfl,
   C6_merge_reference_behaviour.2.2.2.2.2.2.1 [("k", .vInt 7)] "k" (.vInt 1)
     (.vInt 7) "s" rfl,
   C6_merge_reference_behaviour.2.2.2.2.2.2.2.1 [("k", .vInt 7)] "k" (.vInt 1)
     (.vInt 7) "s" rfl,
   C6_merge_reference_behaviour.2.2.2.2.2.2.2.2.1 [("k", .vList [.vInt 7])] "k"
     (.vInt 1) "s" [.vInt 7] rfl,
   C6_merge_reference_behaviour.2.2.2.2.2.2.2.2.2 [("k", .vDict [("r", .vInt 7)])]
     "k" (.vInt 1) "s" [("r", .vInt 7)] rfl⟩

/-- Claim C7, counterexample: on the concurrent engine (which honours the
affair's merge strategy) the disjoint-key scenario under `list_merge` yields
`a ↦ [1], b ↦ [2]`, not the claimed `a ↦ 1, b ↦ 2` (the repo's own test
`test_list_merge_disjoint_keys` asserts the wrapped form). -/
theorem C7_counterexample :
    emitAsyncF envC7 regC7 3 (affC7 .list_merge) ([], []) =
      .ok ([("a", .vList [.vInt 1]), ("b", .vList [.vInt 2])],
           ([(1, 1), (2, 1)], [(10, 1), (10, 2)])) ∧
    ([("a", Value.vList [.vInt 1]), ("b", Value.vList [.vInt 2])] : Dict) ≠
      [("a", Value.vInt 1), ("b", Value.vInt 2)] :=
  ⟨rfl, by simp⟩

/-- Claim C7, amended: the two independent disjoint-key callbacks produce
`a ↦ 1, b ↦ 2` under `raise`, `keep` and `override` on the concurrent
engine, and under every strategy on the synchronous engine as implemented
(it always merges with the default `raise` strategy); under `list_merge`
the concurrent engine wraps each value in a singleton list and under
`dict_merge` in a one-entry dict keyed by the callback name. -/
theorem C7_disjoint_keys_amended :
    (∀ strategy : MergeStrategy,
      emitSyncF envC7 regC7 3 (affC7 strategy) ([], []) =
        .ok ([("a", .vInt 1), ("b", .vInt 2)],
             ([(1, 1), (2, 1)], [(10, 1), (10, 2)])))
  ∧ emitAsyncF envC7 regC7 3 (affC7 .raiseS) ([], []) =
      .ok ([("a", .vInt 1), ("b", .vInt 2)],
           ([(1, 1), (2, 1)], [(10, 1), (10, 2)]))
  ∧ emitAsyncF envC7 regC7 3 (affC7 .keep) ([], []) =
      .ok ([("a", .vInt 1), ("b", .vInt 2)],
           ([(1, 1), (2, 1)], [(10, 1), (10, 2)]))
  ∧ emitAsyncF envC7 regC7 3 (affC7 .override) ([], []) =
      .ok ([("a", .vInt 1), ("b", .vInt 2)],
           ([(1, 1), (2, 1)], [(10, 1), (10, 2)]))
  ∧ emitAsyncF envC7 regC7 3 (affC7 .list_merge) ([], []) =
      .ok ([("a", .vList [.vInt 1]), ("b", .vList [.vInt 2])],
           ([(1, 1), (2, 1)], [(10, 1), (10, 2)]))
  ∧ emitAsyncF envC7 regC7 3 (affC7 .dict_merge) ([], []) =
      .ok ([("a", .vDict [("1", .vInt 1)]), ("b", .vDict [("2", .vInt 2)])],
           ([(1, 1), (2, 1)], [(10, 1), (10, 2)])) :=
  ⟨fun strategy => by cases strategy <;> rfl, rfl, rfl, rfl, rfl, rfl⟩

/-- Claim C8: `emit` with `emit_up` false dispatches only the concrete
affair type; with `emit_up` true it dispatches the MRO chain child-first.
On the Parent (10) / Child (11) scenario with one callback each, emitting a
Child invokes only the child callback when `emit_up` is false, and the
child callback then the parent callback — merging both results — when
`emit_up` is true. -/
theorem C8_emit_up_hierarchy :
    (∀ (env : EmitEnv) (fuel : Nat) (a : AffairInst), a.emit_up = false →
      resolve_affair_types env fuel a = [a.ty])
  ∧ (∀ (env : EmitEnv) (fuel : Nat) (a : AffairInst), a.emit_up = true →
      resolve_affair_types env fuel a = mroChain env fuel a.ty)
  ∧ mroChain envC8 3 11 = [11, 10, 9]
  ∧ emitSyncF envC8 regC8 3 { ty := 11 } ([], []) =
      .ok ([("from_child", .vBool true)], ([(1, 1)], [(11, 1)]))
  ∧ emitSyncF envC8 regC8 3 { ty := 11, emit_up := true } ([], []) =
      .ok ([("from_child", .vBool true), ("from_parent", .vBool true)],
           ([(1, 1), (2, 1)], [(11, 1), (10, 2)])) := by
  refine ⟨?_, ?_, rfl, rfl, rfl⟩
  · intro env fuel a h
    simp [resolve_affair_types, h]
  · intro env fuel a h
    simp [resolve_affair_types, h]

/-- Witness for C8: the type-resolution conjuncts instantiated at the
scenario affairs. -/
theorem C8_witness :
    resolve_affair_types envC8 3 { ty := 11 } = [11]
  ∧ resolve_affair_types envC8 3 { ty := 11, emit_up := true } =
      mroChain envC8 3 11 :=
  ⟨C8_emit_up_hierarchy.1 envC8 3 { ty := 11 } rfl,
   C8_emit_up_hierarchy.2.1 envC8 3 { ty := 11, emit_up := true } rfl⟩

end Affairon
